import Mathlib

/-!
Verification of the securefs *lite format* layer (`lite_stream.cpp`,
`lite_operations.cpp`) against its natural-language specification.

Bytes are modelled as natural numbers (a byte is zero or not; the
cryptographic content of a byte never matters here).  Buffers are
`List Nat`.  The inner (underlying) stream is abstracted by the data its
`read` call returns and by the write events the code issues against it;
the AES-GCM primitives and the CSPRNG are abstracted as function
parameters, since the control flow under verification never inspects
their output beyond length and all-zero tests.
-/

namespace securefs
namespace lite

/-- `is_all_zeros` from the byte utilities: true iff every byte is zero. -/
def is_all_zeros (buf : List Nat) : Bool :=
  buf.all (fun b => b == 0)

/-- `MAX_BLOCKS = (1ULL << 31) - 1` from `lite_stream.cpp`. -/
def MAX_BLOCKS : Nat := 2 ^ 31 - 1

/-- Modelled from the spec: `get_header_size()` lives in `lite_stream.h`,
which is not among the provided sources; the spec fixes `header_size = 32`. -/
def get_header_size : Nat := 32

/-- Modelled from the spec: `get_mac_size()` lives in `lite_stream.h`,
which is not among the provided sources; the spec fixes `mac_size = 16`. -/
def get_mac_size : Nat := 16

/-- Modelled from the spec: `get_underlying_block_size()` lives in
`lite_stream.h`; the spec fixes it as `block_size + iv_size + mac_size`. -/
def get_underlying_block_size (block_size iv_size : Nat) : Nat :=
  block_size + iv_size + get_mac_size

/-- `AESGCMCryptStream::calculate_real_size` from `lite_stream.cpp`:
the logical size computed from the underlying size. -/
def calculate_real_size (underlying_size block_size iv_size : Nat) : Nat :=
  let header_size := get_header_size
  let underlying_block_size := get_underlying_block_size block_size iv_size
  if underlying_size ≤ header_size then 0
  else
    let remaining := underlying_size - header_size
    let num_blocks := remaining / underlying_block_size
    let residue := remaining % underlying_block_size
    num_blocks * block_size
      + (if residue > iv_size + get_mac_size then residue - iv_size - get_mac_size else 0)

/-- `AESGCMCryptStream::size` from `lite_stream.cpp`: delegates to
`calculate_real_size` on the size of the inner stream. -/
def AESGCMCryptStream.size (underlying_total block_size iv_size : Nat) : Nat :=
  calculate_real_size underlying_total block_size iv_size

/-- The size formula of the spec (§3), written over the integers so
that `max(0, r − iv_size − mac_size)` reads literally. -/
def spec_logical_size (underlying_total block_size iv_size : Nat) : Int :=
  if underlying_total ≤ 32 then 0
  else
    let u := underlying_total - 32
    let ubs := block_size + iv_size + 16
    let n := u / ubs
    let r := u % ubs
    (n : Int) * block_size + max 0 ((r : Int) - iv_size - 16)

/-- The truncated-subtraction branch in `calculate_real_size` coincides with
the `max(0, r − i − 16)` of the spec once read over the integers. -/
lemma ite_residue_eq_max (r i : Nat) :
    ((if i + 16 < r then r - i - 16 else 0 : Nat) : Int) = max 0 ((r : Int) - i - 16) := by
  rcases Nat.lt_or_ge (i + 16) r with h | h
  · rw [if_pos h, max_eq_right (by omega)]
    omega
  · rw [if_neg (by omega), max_eq_left (by omega)]
    rfl

/-- C1: for every underlying size, the logical size reported by
`AESGCMCryptStream::size()` equals the spec formula: 0 when the underlying
size is at most the 32-byte header; otherwise, with `U` the underlying size
minus 32, `n = U div underlying_block_size`, `r = U mod underlying_block_size`
and `underlying_block_size = block_size + iv_size + 16`, it equals
`n·block_size + max(0, r − iv_size − 16)`. -/
theorem size_eq_spec_formula (underlying_total block_size iv_size : Nat) :
    (AESGCMCryptStream.size underlying_total block_size iv_size : Int)
      = spec_logical_size underlying_total block_size iv_size := by
  simp only [AESGCMCryptStream.size, calculate_real_size, spec_logical_size,
    get_underlying_block_size, get_header_size, get_mac_size]
  by_cases h : underlying_total ≤ 32
  · simp [h]
  · rw [if_neg h, if_neg h, Nat.cast_add, Nat.cast_mul,
      ite_residue_eq_max ((underlying_total - 32) % (block_size + iv_size + 16)) iv_size]

/-- Outcome of `AESGCMCryptStream::write_block`: either the
`StreamTooLongException` (raised before any inner-stream access), or the one
write issued against the inner stream, recorded as its offset and data
together with whether the CSPRNG was consulted (`drewIV`) and whether
AES-GCM encryption ran (`encrypted`); `outOfRandomness` marks the case where
the modelled finite supply of CSPRNG draws is exhausted by the redraw loop. -/
inductive WriteOutcome where
  | streamTooLong (max_size attempted : Nat)
  | wrote (offset : Nat) (data : List Nat) (drewIV encrypted : Bool)
  | outOfRandomness
  deriving Repr, DecidableEq

/-- The `do { generate_random(...) } while (is_all_zeros(...))` redraw loop
in `write_block`, consuming successive CSPRNG outputs until one is not
all-zero. -/
def draw_iv : List (List Nat) → Option (List Nat)
  | [] => none
  | d :: rest => if is_all_zeros d then draw_iv rest else some d

/-- `AESGCMCryptStream::write_block` from `lite_stream.cpp`.  `encrypt`
abstracts `GCM::EncryptAndAuthenticate` (arguments: IV, block number bound
as associated data, plaintext; result: ciphertext and tag); `draws` is the
sequence of outputs the CSPRNG would produce. -/
def write_block (block_size iv_size : Nat)
    (encrypt : List Nat → Nat → List Nat → List Nat × List Nat)
    (draws : List (List Nat))
    (block_number : Nat) (input : List Nat) : WriteOutcome :=
  if block_number > MAX_BLOCKS then
    .streamTooLong (MAX_BLOCKS * block_size) (block_number * block_size)
  else
    let underlying_offset :=
      block_number * get_underlying_block_size block_size iv_size + get_header_size
    let underlying_size := input.length + iv_size + get_mac_size
    if is_all_zeros input then
      .wrote underlying_offset (List.replicate underlying_size 0) false false
    else
      match draw_iv draws with
      | none => .outOfRandomness
      | some iv =>
          let ctag := encrypt iv block_number input
          .wrote underlying_offset (iv ++ ctag.1 ++ ctag.2) true true

/-- C2: for every block number `i ≤ 2^31 − 1` and all-zero plaintext of
length `n`, `write_block` issues a single inner-stream write of exactly
`n + iv_size + mac_size` zero bytes at underlying offset
`header_size + i·underlying_block_size`, with no encryption performed and
no IV drawn. -/
theorem write_block_all_zero_sparse (block_size iv_size : Nat)
    (encrypt : List Nat → Nat → List Nat → List Nat × List Nat)
    (draws : List (List Nat)) (block_number : Nat) (input : List Nat)
    (hb : block_number ≤ MAX_BLOCKS) (hz : is_all_zeros input = true) :
    write_block block_size iv_size encrypt draws block_number input
      = .wrote (get_header_size + block_number * get_underlying_block_size block_size iv_size)
          (List.replicate (input.length + iv_size + get_mac_size) 0) false false := by
  simp only [write_block, hz, if_true, if_neg (by omega : ¬ block_number > MAX_BLOCKS)]
  rw [Nat.add_comm]

/-- Witness for C2 at `block_size = 4096`, `iv_size = 12`, block 1,
all-zero plaintext of length 3. -/
theorem write_block_all_zero_sparse_witness :
    (1 ≤ MAX_BLOCKS ∧ is_all_zeros [0, 0, 0] = true)
    ∧ write_block 4096 12 (fun _ _ _ => ([], [])) [] 1 [0, 0, 0]
      = .wrote (get_header_size + 1 * get_underlying_block_size 4096 12)
          (List.replicate ([0, 0, 0].length + 12 + get_mac_size) 0) false false :=
  ⟨⟨by decide, by decide⟩,
    write_block_all_zero_sparse 4096 12 (fun _ _ _ => ([], [])) [] 1 [0, 0, 0]
      (by decide) (by decide)⟩

/-- Whatever `draw_iv` returns was one of the draws. -/
lemma draw_iv_mem (draws : List (List Nat)) (iv : List Nat)
    (h : draw_iv draws = some iv) : iv ∈ draws := by
  induction draws with
  | nil => simp [draw_iv] at h
  | cons d rest ih =>
      by_cases hd : is_all_zeros d = true
      · exact List.mem_cons_of_mem _ (ih (by simpa [draw_iv, hd] using h))
      · simp only [draw_iv, hd, if_neg, Bool.false_eq_true, if_false,
          Option.some.injEq] at h
        exact h ▸ List.mem_cons_self _ _

/-- Whatever `draw_iv` returns is not all-zero. -/
lemma draw_iv_not_all_zero (draws : List (List Nat)) (iv : List Nat)
    (h : draw_iv draws = some iv) : is_all_zeros iv = false := by
  induction draws with
  | nil => simp [draw_iv] at h
  | cons d rest ih =>
      by_cases hd : is_all_zeros d = true
      · exact ih (by simpa [draw_iv, hd] using h)
      · simp only [draw_iv, hd, if_neg, Bool.false_eq_true, if_false,
          Option.some.injEq] at h
        simpa [← h] using hd

/-- C4: on every `write_block` whose plaintext is not all-zero, the
`iv_size` bytes laid down as the IV of the block (the prefix of the data
written to the inner stream) are not all zero: the CSPRNG is redrawn until a
non-all-zero IV is obtained, so a non-sparse block never collides with the
all-zero sparse sentinel. -/
theorem write_block_iv_not_all_zero (block_size iv_size : Nat)
    (encrypt : List Nat → Nat → List Nat → List Nat × List Nat)
    (draws : List (List Nat)) (block_number : Nat) (input : List Nat)
    (hlen : ∀ d ∈ draws, d.length = iv_size)
    (hz : is_all_zeros input = false)
    (off : Nat) (data : List Nat) (drew enc : Bool)
    (h : write_block block_size iv_size encrypt draws block_number input
        = .wrote off data drew enc) :
    is_all_zeros (data.take iv_size) = false := by
  by_cases hb : block_number > MAX_BLOCKS
  · simp [write_block, hb] at h
  · simp only [write_block, if_neg hb, hz, Bool.false_eq_true, if_false] at h
    cases hdraw : draw_iv draws with
    | none => rw [hdraw] at h; simp at h
    | some iv =>
        rw [hdraw] at h
        simp only [WriteOutcome.wrote.injEq] at h
        have hiv_len : iv.length = iv_size := hlen iv (draw_iv_mem draws iv hdraw)
        have : data.take iv_size = iv := by
          rw [← h.2.1, List.append_assoc, ← hiv_len, List.take_left]
        rw [this]
        exact draw_iv_not_all_zero draws iv hdraw

/-- Witness for C4 at `iv_size = 12` with one non-zero CSPRNG draw and
plaintext `[1]`. -/
theorem write_block_iv_not_all_zero_witness :
    ((∀ d ∈ [List.replicate 12 1], d.length = 12) ∧ is_all_zeros [1] = false)
    ∧ is_all_zeros ((List.replicate 12 1
        ++ ([] : List Nat) ++ ([] : List Nat)).take 12) = false :=
  ⟨⟨by decide, by decide⟩,
    write_block_iv_not_all_zero 4096 12 (fun _ _ _ => ([], []))
      [List.replicate 12 1] 1 [1] (by decide) (by decide)
      (1 * get_underlying_block_size 4096 12 + get_header_size)
      (List.replicate 12 1 ++ ([] : List Nat) ++ ([] : List Nat)) true true
      (by decide)⟩

/-- Outcome of `AESGCMCryptStream::read_block`: the
`StreamTooLongException` (raised before any inner-stream access), the
return-0 past-EOF case, the defensive `InvalidArgument` on an overlong
read, the all-zero fast path (no AEAD decryption; `output` is what is
written to the caller buffer and `ret` the returned count), the decrypted
case, or the `LiteMessageVerificationException`. -/
inductive ReadOutcome where
  | streamTooLong (max_size attempted : Nat)
  | eofZero
  | invalidRead
  | sparse (output : List Nat) (ret : Nat)
  | plain (output : List Nat) (ret : Nat)
  | verificationFailure
  deriving Repr, DecidableEq

/-- The value `read_block` returns to its caller, when it returns at all
(`eofZero` returns 0; exceptions return nothing). -/
def ReadOutcome.retval : ReadOutcome → Option Nat
  | .eofZero => some 0
  | .sparse _ r => some r
  | .plain _ r => some r
  | _ => none

/-- `AESGCMCryptStream::read_block` from `lite_stream.cpp`.  `decrypt`
abstracts `GCM::DecryptAndVerify` (arguments: IV, block number bound as
associated data, ciphertext, tag; result: the plaintext it writes to the
output buffer and the verification flag); `data` is what the inner-stream
read at offset `header_size + block_number · underlying_block_size`
returned (at most `underlying_block_size` bytes in any conforming stream). -/
def read_block (block_size iv_size : Nat) (check : Bool)
    (decrypt : List Nat → Nat → List Nat → List Nat → List Nat × Bool)
    (block_number : Nat) (data : List Nat) : ReadOutcome :=
  if block_number > MAX_BLOCKS then
    .streamTooLong (MAX_BLOCKS * block_size) (block_number * block_size)
  else
    let rc := data.length
    if rc ≤ get_mac_size + iv_size then .eofZero
    else if rc > get_underlying_block_size block_size iv_size then .invalidRead
    else
      let out_size := rc - iv_size - get_mac_size
      if is_all_zeros data then
        .sparse (List.replicate block_size 0) out_size
      else
        let pr := decrypt (data.take iv_size) block_number
          ((data.drop iv_size).take out_size) (data.drop (rc - get_mac_size))
        if check && !pr.2 then .verificationFailure
        else .plain pr.1 out_size

/-- C3: for every block number `i ≤ 2^31 − 1`, when the inner-stream read
returns `r` bytes (necessarily `r ≤ underlying_block_size`): if
`r > iv_size + mac_size` and the bytes are all zero, `read_block` fills the
output with `block_size` zero bytes, runs no AEAD decryption, and returns
`r − iv_size − mac_size`; and if `r ≤ iv_size + mac_size` it returns 0. -/
theorem read_block_sparse_and_eof (block_size iv_size : Nat) (check : Bool)
    (decrypt : List Nat → Nat → List Nat → List Nat → List Nat × Bool)
    (block_number : Nat) (data : List Nat)
    (hb : block_number ≤ MAX_BLOCKS)
    (hle : data.length ≤ get_underlying_block_size block_size iv_size) :
    (iv_size + get_mac_size < data.length → is_all_zeros data = true →
      read_block block_size iv_size check decrypt block_number data
        = .sparse (List.replicate block_size 0)
            (data.length - iv_size - get_mac_size))
    ∧ (data.length ≤ iv_size + get_mac_size →
      read_block block_size iv_size check decrypt block_number data = .eofZero
      ∧ (read_block block_size iv_size check decrypt block_number data).retval
          = some 0) := by
  constructor
  · intro hr hz
    simp only [read_block, if_neg (by omega : ¬ block_number > MAX_BLOCKS),
      if_neg (by omega : ¬ data.length ≤ get_mac_size + iv_size),
      if_neg (by omega : ¬ data.length > get_underlying_block_size block_size iv_size),
      hz, if_true]
  · intro hr
    have heq : read_block block_size iv_size check decrypt block_number data
        = .eofZero := by
      simp only [read_block, if_neg (by omega : ¬ block_number > MAX_BLOCKS),
        if_pos (by omega : data.length ≤ get_mac_size + iv_size)]
    exact ⟨heq, by rw [heq]; rfl⟩

/-- Witness for C3 at `block_size = 32`, `iv_size = 12`, block 0, an
all-zero 60-byte read (sparse branch) and, for the past-EOF branch, the
same parameters via a second application at a 10-byte read. -/
theorem read_block_sparse_and_eof_witness :
    (0 ≤ MAX_BLOCKS
      ∧ (List.replicate 60 0).length ≤ get_underlying_block_size 32 12)
    ∧ read_block 32 12 true (fun _ _ _ _ => ([], true)) 0 (List.replicate 60 0)
        = .sparse (List.replicate 32 0)
            ((List.replicate 60 0).length - 12 - get_mac_size) :=
  ⟨⟨by decide, by decide⟩,
    (read_block_sparse_and_eof 32 12 true (fun _ _ _ _ => ([], true)) 0
      (List.replicate 60 0) (by decide) (by decide)).1 (by decide) (by decide)⟩

/-- C5: on a non-all-zero, non-past-EOF block read whose AEAD verification
fails, `read_block` raises `MessageVerification` precisely when the stream
was constructed with `check = true`; with `check = false` it returns the
decrypted plaintext and the count `r − iv_size − mac_size` even though
verification failed. -/
theorem read_block_check_flag (block_size iv_size : Nat) (check : Bool)
    (decrypt : List Nat → Nat → List Nat → List Nat → List Nat × Bool)
    (block_number : Nat) (data : List Nat)
    (hb : block_number ≤ MAX_BLOCKS)
    (hr : iv_size + get_mac_size < data.length)
    (hle : data.length ≤ get_underlying_block_size block_size iv_size)
    (hz : is_all_zeros data = false)
    (hfail : (decrypt (data.take iv_size) block_number
        ((data.drop iv_size).take (data.length - iv_size - get_mac_size))
        (data.drop (data.length - get_mac_size))).2 = false) :
    (read_block block_size iv_size check decrypt block_number data
        = .verificationFailure ↔ check = true)
    ∧ read_block block_size iv_size false decrypt block_number data
        = .plain (decrypt (data.take iv_size) block_number
            ((data.drop iv_size).take (data.length - iv_size - get_mac_size))
            (data.drop (data.length - get_mac_size))).1
          (data.length - iv_size - get_mac_size) := by
  have hmain : ∀ c : Bool,
      read_block block_size iv_size c decrypt block_number data
        = if c then .verificationFailure
          else .plain (decrypt (data.take iv_size) block_number
              ((data.drop iv_size).take (data.length - iv_size - get_mac_size))
              (data.drop (data.length - get_mac_size))).1
            (data.length - iv_size - get_mac_size) := by
    intro c
    simp only [read_block, if_neg (by omega : ¬ block_number > MAX_BLOCKS),
      if_neg (by omega : ¬ data.length ≤ get_mac_size + iv_size),
      if_neg (by omega : ¬ data.length > get_underlying_block_size block_size iv_size),
      hz, Bool.false_eq_true, if_false, hfail]
    cases c <;> simp
  constructor
  · rw [hmain check]
    cases check <;> simp
  · rw [hmain false]
    simp

/-- Witness for C5 at `block_size = 32`, `iv_size = 12`, block 0, a 61-byte
non-zero read, and a decryptor that always rejects. -/
theorem read_block_check_flag_witness :
    (0 ≤ MAX_BLOCKS ∧ 12 + get_mac_size < (1 :: List.replicate 59 0).length
      ∧ (1 :: List.replicate 59 0).length ≤ get_underlying_block_size 32 12
      ∧ is_all_zeros (1 :: List.replicate 59 0) = false)
    ∧ (read_block 32 12 true (fun _ _ _ _ => ([7], false)) 0
          (1 :: List.replicate 59 0) = .verificationFailure ↔ True)
    ∧ read_block 32 12 false (fun _ _ _ _ => ([7], false)) 0
        (1 :: List.replicate 59 0)
      = .plain [7] ((1 :: List.replicate 59 0).length - 12 - get_mac_size) := by
  have h := read_block_check_flag 32 12 true (fun _ _ _ _ => ([7], false)) 0
    (1 :: List.replicate 59 0) (by decide) (by decide) (by decide) (by decide)
    (by decide)
  exact ⟨⟨by decide, by decide, by decide, by decide⟩,
    by rw [h.1]; simp, h.2⟩

/-- C6: for every block number `i > 2^31 − 1` both `read_block` and
`write_block` raise `StreamTooLong` before touching the inner stream (the
outcome records no inner-stream access), and for every `i ≤ 2^31 − 1`
neither raises `StreamTooLong`. -/
theorem block_number_limit (block_size iv_size : Nat) (check : Bool)
    (decrypt : List Nat → Nat → List Nat → List Nat → List Nat × Bool)
    (encrypt : List Nat → Nat → List Nat → List Nat × List Nat)
    (draws : List (List Nat)) (block_number : Nat) (data input : List Nat) :
    (block_number > MAX_BLOCKS →
      read_block block_size iv_size check decrypt block_number data
        = .streamTooLong (MAX_BLOCKS * block_size) (block_number * block_size)
      ∧ write_block block_size iv_size encrypt draws block_number input
        = .streamTooLong (MAX_BLOCKS * block_size) (block_number * block_size))
    ∧ (block_number ≤ MAX_BLOCKS →
      (∀ m a, read_block block_size iv_size check decrypt block_number data
        ≠ .streamTooLong m a)
      ∧ (∀ m a, write_block block_size iv_size encrypt draws block_number input
        ≠ .streamTooLong m a)) := by
  constructor
  · intro hb
    exact ⟨by simp [read_block, hb], by simp [write_block, hb]⟩
  · intro hb
    constructor
    · intro m a
      simp only [read_block, if_neg (by omega : ¬ block_number > MAX_BLOCKS)]
      split
      · simp
      · split
        · simp
        · split
          · simp
          · split <;> simp
    · intro m a
      simp only [write_block, if_neg (by omega : ¬ block_number > MAX_BLOCKS)]
      split
      · simp
      · cases draw_iv draws <;> simp

/-- Witness for C6 at block number `2^31` (over the limit), exercising the
first implication of the theorem. -/
theorem block_number_limit_witness :
    read_block 32 12 true (fun _ _ _ _ => ([], true)) (2 ^ 31) []
      = .streamTooLong (MAX_BLOCKS * 32) (2 ^ 31 * 32)
    ∧ write_block 32 12 (fun _ _ _ => ([], [])) [] (2 ^ 31) []
      = .streamTooLong (MAX_BLOCKS * 32) (2 ^ 31 * 32) :=
  (block_number_limit 32 12 true (fun _ _ _ _ => ([], true))
    (fun _ _ _ => ([], [])) [] (2 ^ 31) [] []).1 (by decide)

/-- Outcome of the `AESGCMCryptStream` constructor: an
`InvalidArgument` exception with its message, a fresh-file case recording
the header written to the inner stream at offset 0 and the derived session
key, or the existing-file case with the derived session key. -/
inductive CtorOutcome where
  | invalidArgument (msg : String)
  | freshHeader (written_header session_key : List Nat)
  | existingHeader (session_key : List Nat)
  deriving Repr, DecidableEq

/-- `AESGCMCryptStream::AESGCMCryptStream` from `lite_stream.cpp`.
`aes_ecb` abstracts `ECB_Mode<AES>::Encryption::ProcessData` (arguments:
key, input block); `stream_present` is whether the inner stream pointer is
non-null; `header_read` is what `m_stream->read(header, 0, 32)` returned
(at most 32 bytes); `fresh_header` is the `generate_random` output used
when the file is empty. -/
def mkAESGCMCryptStream (aes_ecb : List Nat → List Nat → List Nat)
    (master_key : List Nat) (stream_present : Bool) (block_size iv_size : Nat)
    (header_read fresh_header : List Nat) : CtorOutcome :=
  if iv_size < 12 ∨ iv_size > 32 then
    .invalidArgument "IV size too small or too large"
  else if !stream_present then .invalidArgument "Null stream"
  else if block_size < 32 then .invalidArgument "Block size too small"
  else if header_read.length = 0 then
    .freshHeader fresh_header (aes_ecb master_key fresh_header)
  else if header_read.length ≠ get_header_size then
    .invalidArgument "Underlying stream has invalid header size"
  else .existingHeader (aes_ecb master_key header_read)

/-- C7: at construction (with valid `iv_size`, `block_size` and a non-null
inner stream), the 32-byte read at inner offset 0 decides the header: a
0-byte read makes the constructor write a fresh random header and derive
the session key from it; any other count than 0 or 32 is
`InvalidArgument`; a 32-byte read derives the session key from the bytes
read.  In each surviving case the session key is the AES-ECB encryption of
the header under the master key. -/
theorem ctor_header_cases (aes_ecb : List Nat → List Nat → List Nat)
    (master_key : List Nat) (block_size iv_size : Nat)
    (header_read fresh_header : List Nat)
    (hiv : 12 ≤ iv_size ∧ iv_size ≤ 32) (hbs : 32 ≤ block_size) :
    (header_read.length = 0 →
      mkAESGCMCryptStream aes_ecb master_key true block_size iv_size
          header_read fresh_header
        = .freshHeader fresh_header (aes_ecb master_key fresh_header))
    ∧ (header_read.length ≠ 0 → header_read.length ≠ 32 →
      mkAESGCMCryptStream aes_ecb master_key true block_size iv_size
          header_read fresh_header
        = .invalidArgument "Underlying stream has invalid header size")
    ∧ (header_read.length = 32 →
      mkAESGCMCryptStream aes_ecb master_key true block_size iv_size
          header_read fresh_header
        = .existingHeader (aes_ecb master_key header_read)) := by
  have hno : ¬ (iv_size < 12 ∨ iv_size > 32) := by omega
  refine ⟨fun h0 => ?_, fun h0 h32 => ?_, fun h32 => ?_⟩
  · simp only [mkAESGCMCryptStream, if_neg hno, Bool.not_true,
      Bool.false_eq_true, if_false, if_neg (by omega : ¬ block_size < 32),
      if_pos h0]
  · simp only [mkAESGCMCryptStream, if_neg hno, Bool.not_true,
      Bool.false_eq_true, if_false, if_neg (by omega : ¬ block_size < 32),
      if_neg h0, get_header_size, if_pos h32]
  · simp only [mkAESGCMCryptStream, if_neg hno, Bool.not_true,
      Bool.false_eq_true, if_false, if_neg (by omega : ¬ block_size < 32),
      if_neg (by omega : ¬ header_read.length = 0), get_header_size,
      if_neg (by omega : ¬ header_read.length ≠ 32)]

/-- Witness for C7: with a 32-byte header read back, the session key is the
ECB encryption of that header (here `aes_ecb` is instantiated as
concatenation so the result is visible). -/
theorem ctor_header_cases_witness :
    ((12 ≤ 12 ∧ 12 ≤ 32) ∧ 32 ≤ 4096 ∧ (List.replicate 32 7).length = 32)
    ∧ mkAESGCMCryptStream (fun k h => k ++ h) [5] true 4096 12
        (List.replicate 32 7) []
      = .existingHeader ((fun k h => k ++ h) [5] (List.replicate 32 7)) :=
  ⟨⟨⟨by decide, by decide⟩, by decide, by decide⟩,
    (ctor_header_cases (fun k h => k ++ h) [5] 4096 12 (List.replicate 32 7)
      [] ⟨by decide, by decide⟩ (by decide)).2.2 (by decide)⟩

/-! ### FUSE callback surface (`lite_operations.cpp`) -/

/-- `EFAULT` errno value. -/
def EFAULT : Nat := 14

/-- `EINVAL` errno value. -/
def EINVAL : Nat := 22

/-- The `static_cast<int>` narrowing applied to the 64-bit counts at
`lite_operations.cpp:272,296,517,530`: wrap modulo `2^32` into the
two's-complement range `[-2^31, 2^31)`. -/
def int32_cast (i : Int) : Int :=
  if i % 2 ^ 32 < 2 ^ 31 then i % 2 ^ 32 else i % 2 ^ 32 - 2 ^ 32

/-- `lite::read` from `lite_operations.cpp`: a null file handle gives
`-EFAULT`; otherwise `File::read` either returns a byte count, which the
callback returns through `static_cast<int>`, or throws, and the negated
errno of the exception is returned. -/
def lite_read (fp_present : Bool) (read_result : Except Nat Nat) : Int :=
  if !fp_present then -(EFAULT : Int)
  else
    match read_result with
    | .ok n => int32_cast n
    | .error code => -(code : Int)

/-- `lite::write` from `lite_operations.cpp`: a null file handle gives
`-EFAULT`; otherwise on success the callback returns
`static_cast<int>(size)`, and on an exception the negated errno. -/
def lite_write (fp_present : Bool) (write_result : Except Nat Unit)
    (size : Nat) : Int :=
  if !fp_present then -(EFAULT : Int)
  else
    match write_result with
    | .ok _ => int32_cast size
    | .error code => -(code : Int)

/-- The try/`SINGLE_COMMON_EPILOGUE` shape shared by the remaining
callbacks of `lite_operations.cpp` (`getattr`, `mkdir`, `unlink`, `chmod`,
`rename`, `flush`, ...): zero on success, negated errno on exception. -/
def lite_simple_op (result : Except Nat Unit) : Int :=
  match result with
  | .ok _ => 0
  | .error code => -(code : Int)

/-- `ENOATTR` errno value on Apple platforms. -/
def ENOATTR : Nat := 93

/-- `EACCES` errno value. -/
def EACCES : Nat := 13

/-- `lite::listxattr` (Apple builds) from `lite_operations.cpp`:
the delegated result (byte count on success, negative errno on failure)
narrowed by `static_cast<int>`. -/
def lite_listxattr (delegate : Int) : Int := int32_cast delegate

/-- `lite::getxattr` (Apple builds) from `lite_operations.cpp`: nonzero
`position` gives `-EINVAL`, the two special Apple attribute names are
short-circuited to `-ENOATTR`, otherwise the delegated result is narrowed
by `static_cast<int>`. -/
def lite_getxattr (position : Nat) (name : String) (delegate : Int) : Int :=
  if position ≠ 0 then -(EINVAL : Int)
  else if name = "com.apple.quarantine" then -(ENOATTR : Int)
  else if name = "com.apple.FinderInfo" then -(ENOATTR : Int)
  else int32_cast delegate

/-- `lite::setxattr` (Apple builds) from `lite_operations.cpp`: nonzero
`position` gives `-EINVAL`; `com.apple.quarantine` is accepted as a no-op
returning 0, `com.apple.FinderInfo` gives `-EACCES`; a null value or zero
size is a no-op returning 0; otherwise the delegated `int` result is
returned unchanged. -/
def lite_setxattr (position : Nat) (name : String) (value_present : Bool)
    (size : Nat) (delegate : Int) : Int :=
  if position ≠ 0 then -(EINVAL : Int)
  else if name = "com.apple.quarantine" then 0
  else if name = "com.apple.FinderInfo" then -(EACCES : Int)
  else if value_present = false ∨ size = 0 then 0
  else delegate

/-- `lite::removexattr` (Apple builds) from `lite_operations.cpp`: the
delegated `int` result returned unchanged. -/
def lite_removexattr (delegate : Int) : Int := delegate

/-- The narrowing is the identity below `2^31`. -/
lemma int32_cast_of_lt (n : Nat) (h : n < 2 ^ 31) :
    int32_cast (n : Int) = n := by
  unfold int32_cast
  split <;> omega

/-- The narrowing keeps negated errnos of magnitude at most `2^31`
negative and unchanged. -/
lemma int32_cast_neg_errno (code : Nat) (h1 : 0 < code)
    (h2 : code ≤ 2 ^ 31) : int32_cast (-(code : Int)) = -(code : Int) := by
  unfold int32_cast
  split <;> omega

/-- C8 counterexample: a successful `lite::write` of 5 bytes returns 5,
not zero, so the claim that every callback in the surface (including read
and write) returns zero on success is false on the code. -/
theorem fuse_success_not_always_zero :
    lite_write true (Except.ok ()) 5 = 5 ∧ (5 : Int) ≠ 0 := by
  exact ⟨by decide, by decide⟩

/-- C8 amended: callbacks other than `read`, `write`, `listxattr` and
`getxattr` return zero on success (including the Apple `setxattr`
quarantine no-op) and a negative POSIX errno on failure; a successful
`read` or `write` returns its byte count (resp. requested size) narrowed
by `static_cast<int>` — the count itself, hence nonnegative, whenever it
is below `2^31`, wrapping negative from `2^31` on; `listxattr` and
`getxattr` return the delegated byte count under the same narrowing. -/
theorem fuse_return_conventions (n size code d : Nat) (dl : Int)
    (name : String)
    (hcode : 0 < code) (hcode31 : code ≤ 2 ^ 31)
    (hn : n < 2 ^ 31) (hsize : size < 2 ^ 31) (hd : d < 2 ^ 31)
    (hq : name ≠ "com.apple.quarantine")
    (hf : name ≠ "com.apple.FinderInfo") (hs : size ≠ 0) :
    (lite_simple_op (Except.ok ()) = 0
      ∧ lite_simple_op (Except.error code) < 0)
    ∧ (lite_read true (Except.ok n) = (n : Int)
      ∧ lite_read true (Except.error code) < 0
      ∧ lite_read false (Except.ok n) < 0
      ∧ lite_read true (Except.ok (2 ^ 31)) < 0)
    ∧ (lite_write true (Except.ok ()) size = (size : Int)
      ∧ lite_write true (Except.error code) size < 0
      ∧ lite_write false (Except.ok ()) size < 0
      ∧ lite_write true (Except.ok ()) (2 ^ 31) < 0)
    ∧ (lite_listxattr (d : Int) = (d : Int)
      ∧ lite_listxattr (-(code : Int)) < 0)
    ∧ (lite_getxattr 0 name (d : Int) = (d : Int)
      ∧ lite_getxattr 0 name (-(code : Int)) < 0)
    ∧ (lite_setxattr 0 "com.apple.quarantine" true size dl = 0
      ∧ lite_setxattr 0 "com.apple.FinderInfo" true size dl < 0
      ∧ lite_setxattr 0 name true size 0 = 0
      ∧ lite_setxattr 0 name true size (-(code : Int)) < 0)
    ∧ (lite_removexattr 0 = 0
      ∧ lite_removexattr (-(code : Int)) < 0) := by
  have hneg : int32_cast (-(code : Int)) = -(code : Int) :=
    int32_cast_neg_errno code hcode hcode31
  refine ⟨⟨rfl, ?_⟩, ⟨?_, ?_, ?_, ?_⟩, ⟨?_, ?_, ?_, ?_⟩, ⟨?_, ?_⟩,
    ⟨?_, ?_⟩, ⟨?_, ?_, ?_, ?_⟩, ⟨rfl, ?_⟩⟩
  · show -(code : Int) < 0
    omega
  · simp only [lite_read, Bool.not_true, Bool.false_eq_true, if_false]
    exact int32_cast_of_lt n hn
  · show -(code : Int) < 0
    omega
  · show -(EFAULT : Int) < 0
    simp [EFAULT]
  · simp only [lite_read, Bool.not_true, Bool.false_eq_true, if_false]
    unfold int32_cast
    split <;> omega
  · simp only [lite_write, Bool.not_true, Bool.false_eq_true, if_false]
    exact int32_cast_of_lt size hsize
  · show -(code : Int) < 0
    omega
  · show -(EFAULT : Int) < 0
    simp [EFAULT]
  · simp only [lite_write, Bool.not_true, Bool.false_eq_true, if_false]
    unfold int32_cast
    split <;> omega
  · exact int32_cast_of_lt d hd
  · show int32_cast (-(code : Int)) < 0
    rw [hneg]
    omega
  · unfold lite_getxattr
    rw [if_neg (by decide : ¬ (0 : Nat) ≠ 0), if_neg hq, if_neg hf]
    exact int32_cast_of_lt d hd
  · unfold lite_getxattr
    rw [if_neg (by decide : ¬ (0 : Nat) ≠ 0), if_neg hq, if_neg hf, hneg]
    omega
  · simp [lite_setxattr]
  · simp [lite_setxattr, EACCES]
  · simp [lite_setxattr, hq, hf, hs]
  · simp only [lite_setxattr, if_neg (by decide : ¬ (0 : Nat) ≠ 0),
      if_neg hq, if_neg hf]
    rw [if_neg (by simp [hs])]
    omega
  · show -(code : Int) < 0
    omega

/-- Witness for the amended C8 at `n = 3`, `size = 5`, `code = 2`,
`d = 7`, a zero xattr delegate and attribute name `user.test`. -/
theorem fuse_return_conventions_witness :
    lite_read true (Except.ok 3) = (3 : Int)
    ∧ lite_write true (Except.ok ()) 5 = (5 : Int)
    ∧ lite_getxattr 0 "user.test" (7 : Int) = (7 : Int) := by
  obtain ⟨-, ⟨h1, -, -, -⟩, ⟨h2, -, -, -⟩, -, ⟨h3, -⟩, -, -⟩ :=
    fuse_return_conventions 3 5 2 7 0 "user.test" (by decide) (by decide)
      (by decide) (by decide) (by decide) (by decide) (by decide) (by decide)
  exact ⟨h1, h2, h3⟩

/-- Modulus of the unsigned 64-bit `f_namemax` field of `fuse_statvfs`. -/
def NAMEMAX_MOD : Nat := 2 ^ 64

/-- `buf->f_namemax = buf->f_namemax * 5 / 8 - 16;` from `lite::statfs` in
`lite_operations.cpp`, evaluated in 64-bit unsigned arithmetic (the
multiplication and the subtraction both wrap modulo `2^64`). -/
def statfs_namemax (host_namemax : Nat) : Nat :=
  (host_namemax * 5 % NAMEMAX_MOD / 8 + (NAMEMAX_MOD - 16)) % NAMEMAX_MOD

/-- C9 counterexample: at a host `f_namemax` of 25 the unsigned
subtraction wraps, so the reported value is `2^64 − 1` while the integer
formula `25·5/8 − 16` gives `−1`. -/
theorem statfs_namemax_wraps :
    statfs_namemax 25 = 2 ^ 64 - 1
    ∧ ((2 ^ 64 - 1 : Nat) : Int) ≠ (25 * 5 / 8 : Int) - 16 := by
  constructor
  · rfl
  · decide

/-- C9 amended: whenever `host·5` fits in 64 bits and `host·5/8 ≥ 16`
(true of every real host, where `f_namemax` is small), the reported
`f_namemax` is exactly `host·5/8 − 16`; outside that range the 64-bit
unsigned expression wraps. -/
theorem statfs_namemax_formula (host_namemax : Nat)
    (hfit : host_namemax * 5 < NAMEMAX_MOD)
    (hbig : 16 ≤ host_namemax * 5 / 8) :
    statfs_namemax host_namemax = host_namemax * 5 / 8 - 16 := by
  unfold statfs_namemax
  rw [Nat.mod_eq_of_lt hfit]
  have h2 : host_namemax * 5 / 8 < NAMEMAX_MOD :=
    lt_of_le_of_lt (Nat.div_le_self _ _) hfit
  set q := host_namemax * 5 / 8 with hq
  unfold NAMEMAX_MOD at *
  omega

/-- Witness for the amended C9 at the common host `f_namemax = 255`:
`255·5/8 − 16 = 143`. -/
theorem statfs_namemax_formula_witness :
    (255 * 5 < NAMEMAX_MOD ∧ 16 ≤ 255 * 5 / 8)
    ∧ statfs_namemax 255 = 255 * 5 / 8 - 16 :=
  ⟨⟨by decide, by decide⟩, statfs_namemax_formula 255 (by decide) (by decide)⟩

/-- Execution trace of `lite::truncate` from `lite_operations.cpp`: the
returned value, and whether the per-thread filesystem was constructed
(`get_local_filesystem`), the file opened, and `File::resize` reached. -/
structure TruncateTrace where
  retval : Int
  constructed_fs : Bool
  opened_file : Bool
  resized : Bool
  deriving Repr, DecidableEq

/-- `lite::truncate` from `lite_operations.cpp`.  `len` is the signed
`fuse_off_t` argument; `open_result` abstracts `filesystem->open` and
`resize_result` abstracts `File::resize` (errno of the exception thrown on
failure). -/
def lite_truncate (len : Int) (open_result : Except Nat Unit)
    (resize_result : Except Nat Unit) : TruncateTrace :=
  if len < 0 then ⟨-(EINVAL : Int), false, false, false⟩
  else
    match open_result with
    | .error code => ⟨-(code : Int), true, false, false⟩
    | .ok _ =>
        match resize_result with
        | .error code => ⟨-(code : Int), true, true, false⟩
        | .ok _ => ⟨0, true, true, true⟩

/-- C10: for every negative length, `lite::truncate` returns `-EINVAL`
immediately: the per-thread filesystem is not constructed, no file is
opened, and no resize happens, whatever the abstracted host operations
would have done. -/
theorem truncate_negative_len (len : Int)
    (open_result resize_result : Except Nat Unit) (hneg : len < 0) :
    lite_truncate len open_result resize_result
      = ⟨-(EINVAL : Int), false, false, false⟩ := by
  simp only [lite_truncate, if_pos hneg]

/-- Witness for C10 at `len = −1`. -/
theorem truncate_negative_len_witness :
    ((-1 : Int) < 0)
    ∧ lite_truncate (-1) (Except.ok ()) (Except.ok ())
      = ⟨-(EINVAL : Int), false, false, false⟩ :=
  ⟨by decide,
    truncate_negative_len (-1) (Except.ok ()) (Except.ok ()) (by decide)⟩

end lite
end securefs
